import Mathlib

/-!
Verification of the carbonPaper monitor core against its specification.

The Python sources are shallowly embedded: each relevant function is
translated into an executable Lean definition, with external collaborators
(storage service, recognizer, window system, SQLite) modelled as explicit
oracle parameters.  Machine integers stay `Nat`/`Int` (Python integers are
unbounded), optional Python values become `Option`, and Python truthiness of
strings is made explicit.
-/

namespace CarbonPaper

/-! ### Python value helpers -/

/-- Python truthiness of an optional string: `None` and `""` are falsy. -/
def truthyStr : Option String → Bool
  | none => false
  | some s => s ≠ ""

/-- Python `a or b` on optional strings: the first operand if truthy, else the second. -/
def pyOrStr (a b : Option String) : Option String :=
  if truthyStr a then a else b

/-- Python `str(x)` where `x` is an optional string (`str(None) = "None"`). -/
def pyStrOpt : Option String → String
  | none => "None"
  | some s => s

/-- Python `(x or "")` for an optional string. -/
def pyOrEmptyStr (a : Option String) : String := a.getD ""

/-! ### Command Channel (`monitor/__init__.py`, `_handle_command`)

A request is the structured message from the wire: the `_auth_token` and
`_seq_no` fields plus the command name.  The command dispatch that follows the
authentication prologue is abstracted as a `dispatch` function receiving the
request and the value of `_last_seq_no` at dispatch time (the Python globals
are visible to command handlers, so passing the counter makes the
advance-before-dispatch ordering observable). -/

structure Request where
  authToken : Option String
  seqNo : Option Int
  command : String
deriving DecidableEq, Repr

inductive Response where
  /-- An `{'error': msg}` payload. -/
  | error (msg : String)
  /-- Any non-error payload, abstracted as a string. -/
  | payload (data : String)
deriving DecidableEq, Repr

structure HandleResult where
  resp : Response
  /-- Value of the `_last_seq_no` global after the call. -/
  lastSeqNo : Int
  /-- Whether the command logic after the authentication prologue ran. -/
  dispatched : Bool
deriving DecidableEq, Repr

/-- `if _auth_token and req_token != _auth_token` from `_handle_command`. -/
def tokenCheckFails (authToken : Option String) (req : Request) : Bool :=
  truthyStr authToken && decide (req.authToken ≠ authToken)

/-- The token-mismatch response of `_handle_command`. -/
def tokenErrorResponse : Response :=
  Response.error "Authentication failed: Invalid token"

/-- The sequence-number-rejection response of `_handle_command` (an f-string
interpolating the received and the stored sequence numbers). -/
def seqErrorResponse (got last : Int) : Response :=
  Response.error ("Authentication failed: Invalid sequence number (got " ++
    toString got ++ ", expected > " ++ toString last ++ ")")

/-- The sequence-number phase of `_handle_command`: reject a provided
`_seq_no` that is `≤ _last_seq_no`, otherwise advance the counter and run the
command logic. -/
def seqPhase (lastSeqNo : Int) (dispatch : Request → Int → Response)
    (req : Request) : HandleResult :=
  match req.seqNo with
  | some n =>
    if n ≤ lastSeqNo then
      { resp := seqErrorResponse n lastSeqNo, lastSeqNo := lastSeqNo, dispatched := false }
    else
      { resp := dispatch req n, lastSeqNo := n, dispatched := true }
  | none => { resp := dispatch req lastSeqNo, lastSeqNo := lastSeqNo, dispatched := true }

/-- Shallow embedding of `_handle_command`'s authentication prologue: token
check, then replay check, then command dispatch. -/
def handleCommand (authToken : Option String) (lastSeqNo : Int)
    (dispatch : Request → Int → Response) (req : Request) : HandleResult :=
  if tokenCheckFails authToken req then
    { resp := tokenErrorResponse, lastSeqNo := lastSeqNo, dispatched := false }
  else
    seqPhase lastSeqNo dispatch req

/-- Does a response look like an authentication failure (message begins with
`Authentication failed`)? -/
def isAuthFailureResp : Response → Bool
  | Response.error m => ("Authentication failed".data).isPrefixOf m.data
  | Response.payload _ => false

/-- A concrete stand-in dispatch used by closed witnesses. -/
def stubDispatch : Request → Int → Response :=
  fun _ _ => Response.payload "ok"

lemma authFailure_prefix_append (s t : String)
    (h : ("Authentication failed".data).isPrefixOf s.data = true) :
    ("Authentication failed".data).isPrefixOf (s ++ t).data = true := by
  rw [List.isPrefixOf_iff_prefix] at h ⊢
  rw [String.data_append]
  exact h.trans (List.prefix_append s.data t.data)

lemma isAuthFailureResp_seqError (got last : Int) :
    isAuthFailureResp (seqErrorResponse got last) = true := by
  unfold seqErrorResponse isAuthFailureResp
  exact authFailure_prefix_append _ _ (authFailure_prefix_append _ _
    (authFailure_prefix_append _ _ (authFailure_prefix_append _ _ (by decide))))

lemma isAuthFailureResp_tokenError : isAuthFailureResp tokenErrorResponse = true := by
  decide

lemma handleCommand_tokenReject {tok : Option String} {st : Int}
    {d : Request → Int → Response} {req : Request}
    (h : tokenCheckFails tok req = true) :
    handleCommand tok st d req =
      { resp := tokenErrorResponse, lastSeqNo := st, dispatched := false } := by
  unfold handleCommand
  rw [if_pos h]

lemma handleCommand_seqReject {tok : Option String} {st : Int}
    {d : Request → Int → Response} {req : Request} {n : Int}
    (h : tokenCheckFails tok req = false) (hn : req.seqNo = some n) (hle : n ≤ st) :
    handleCommand tok st d req =
      { resp := seqErrorResponse n st, lastSeqNo := st, dispatched := false } := by
  simp only [handleCommand, h, Bool.false_eq_true, if_false, seqPhase, hn, if_pos hle]

lemma handleCommand_seqAccept {tok : Option String} {st : Int}
    {d : Request → Int → Response} {req : Request} {n : Int}
    (h : tokenCheckFails tok req = false) (hn : req.seqNo = some n) (hlt : st < n) :
    handleCommand tok st d req =
      { resp := d req n, lastSeqNo := n, dispatched := true } := by
  simp only [handleCommand, h, Bool.false_eq_true, if_false, seqPhase, hn]
  rw [if_neg (by omega)]

lemma handleCommand_noSeq {tok : Option String} {st : Int}
    {d : Request → Int → Response} {req : Request}
    (h : tokenCheckFails tok req = false) (hn : req.seqNo = none) :
    handleCommand tok st d req =
      { resp := d req st, lastSeqNo := st, dispatched := true } := by
  simp only [handleCommand, h, Bool.false_eq_true, if_false, seqPhase, hn]

/-! ### Claims C2, C3, C9: Command Channel authentication -/

/-- Claim C2: for every request handled by `_handle_command`, a `_seq_no`
strictly greater than the last accepted value (with the token check passing)
is accepted, the counter is advanced to that value before the command logic
runs (the dispatch sees the new counter value); a `_seq_no` less than or equal
to the last accepted value is rejected with an authentication-failure error,
no command logic runs and the counter is unchanged; and the counter never
decreases. -/
theorem c2_seq_replay_protection (tok : Option String) (st : Int)
    (d : Request → Int → Response) (req : Request) :
    (∀ n, req.seqNo = some n → tokenCheckFails tok req = false → st < n →
      handleCommand tok st d req =
        { resp := d req n, lastSeqNo := n, dispatched := true }) ∧
    (∀ n, req.seqNo = some n → n ≤ st →
      isAuthFailureResp (handleCommand tok st d req).resp = true ∧
      (handleCommand tok st d req).lastSeqNo = st ∧
      (handleCommand tok st d req).dispatched = false) ∧
    st ≤ (handleCommand tok st d req).lastSeqNo := by
  refine ⟨fun n hn htok hlt => handleCommand_seqAccept htok hn hlt,
    fun n hn hle => ?_, ?_⟩
  · by_cases h : tokenCheckFails tok req = true
    · rw [handleCommand_tokenReject h]
      exact ⟨isAuthFailureResp_tokenError, rfl, rfl⟩
    · rw [handleCommand_seqReject (Bool.not_eq_true _ ▸ h) hn hle]
      exact ⟨isAuthFailureResp_seqError n st, rfl, rfl⟩
  · by_cases h : tokenCheckFails tok req = true
    · rw [handleCommand_tokenReject h]
    · replace h : tokenCheckFails tok req = false := Bool.not_eq_true _ ▸ h
      cases hs : req.seqNo with
      | none => rw [handleCommand_noSeq h hs]
      | some n =>
        by_cases hle : n ≤ st
        · rw [handleCommand_seqReject h hs hle]
        · rw [handleCommand_seqAccept h hs (by omega)]
          show st ≤ n
          omega

/-- Claim C2 witness: a concrete run of all three conjuncts. -/
theorem c2_seq_replay_protection_witness :
    handleCommand (some "tok") 5 stubDispatch ⟨some "tok", some 9, "status"⟩ =
      { resp := stubDispatch ⟨some "tok", some 9, "status"⟩ 9, lastSeqNo := 9,
        dispatched := true } ∧
    ((handleCommand (some "tok") 9 stubDispatch ⟨some "tok", some 9, "status"⟩).lastSeqNo = 9 ∧
      (handleCommand (some "tok") 9 stubDispatch ⟨some "tok", some 9, "status"⟩).dispatched
        = false) := by
  refine ⟨(c2_seq_replay_protection (some "tok") 5 stubDispatch _).1 9 rfl (by decide)
    (by decide), ?_⟩
  have h := (c2_seq_replay_protection (some "tok") 9 stubDispatch
    ⟨some "tok", some 9, "status"⟩).2.1 9 rfl (by decide)
  exact ⟨h.2.1, h.2.2⟩

/-- Claim C3 counterexample: the token rejection and the sequence rejection
produce distinguishable error payloads, and the sequence rejection payload
depends on (hence reveals) the stored last-accepted sequence number. -/
theorem c3_rejection_counterexample :
    (handleCommand (some "tok") 5 stubDispatch ⟨some "bad", some 7, "status"⟩).resp ≠
      (handleCommand (some "tok") 5 stubDispatch ⟨some "tok", some 3, "status"⟩).resp ∧
    (handleCommand (some "tok") 5 stubDispatch ⟨some "tok", some 3, "status"⟩).resp ≠
      (handleCommand (some "tok") 6 stubDispatch ⟨some "tok", some 3, "status"⟩).resp := by
  constructor <;> decide

/-- Claim C3 (amended): both authentication rejections are error responses
whose message begins with `Authentication failed`, but the payloads are not
the same generic error: the token rejection says exactly
`Authentication failed: Invalid token`, while the sequence rejection embeds
the received sequence number and the stored last-accepted sequence number. -/
theorem c3_rejections_same_kind_but_leaky (tok : Option String) (st : Int)
    (d : Request → Int → Response) (req : Request) :
    (tokenCheckFails tok req = true →
      (handleCommand tok st d req).resp = tokenErrorResponse ∧
      isAuthFailureResp (handleCommand tok st d req).resp = true) ∧
    (tokenCheckFails tok req = false → ∀ n, req.seqNo = some n → n ≤ st →
      (handleCommand tok st d req).resp = seqErrorResponse n st ∧
      isAuthFailureResp (handleCommand tok st d req).resp = true) := by
  constructor
  · intro h
    rw [handleCommand_tokenReject h]
    exact ⟨rfl, isAuthFailureResp_tokenError⟩
  · intro h n hn hle
    rw [handleCommand_seqReject h hn hle]
    exact ⟨rfl, isAuthFailureResp_seqError n st⟩

/-- Claim C3 amended witness: both branches evaluated at concrete inputs. -/
theorem c3_rejections_same_kind_but_leaky_witness :
    (handleCommand (some "tok") 5 stubDispatch ⟨some "bad", some 7, "status"⟩).resp
      = tokenErrorResponse ∧
    (handleCommand (some "tok") 5 stubDispatch ⟨some "tok", some 3, "status"⟩).resp
      = seqErrorResponse 3 5 := by
  refine ⟨((c3_rejections_same_kind_but_leaky (some "tok") 5 stubDispatch
    ⟨some "bad", some 7, "status"⟩).1 (by decide)).1, ?_⟩
  exact ((c3_rejections_same_kind_but_leaky (some "tok") 5 stubDispatch
    ⟨some "tok", some 3, "status"⟩).2 (by decide) 3 rfl (by decide)).1

/-- Claim C9: with a nonempty auth token configured, a request whose
`_auth_token` is absent or different from the configured token is rejected
with the token-failure error before the sequence counter is touched and
before any command logic runs; an omitted token yields exactly the same
result as a mismatched one; with no token configured the token check passes
every request (the handler goes straight to the sequence phase). -/
theorem c9_token_check (t : String) (st : Int)
    (d : Request → Int → Response) (req : Request) :
    (t ≠ "" → req.authToken ≠ some t →
      handleCommand (some t) st d req =
        { resp := tokenErrorResponse, lastSeqNo := st, dispatched := false }) ∧
    (t ≠ "" → ∀ w, w ≠ t →
      handleCommand (some t) st d { req with authToken := none } =
        handleCommand (some t) st d { req with authToken := some w }) ∧
    handleCommand none st d req = seqPhase st d req := by
  have hrej : ∀ r : Request, t ≠ "" → r.authToken ≠ some t →
      handleCommand (some t) st d r =
        { resp := tokenErrorResponse, lastSeqNo := st, dispatched := false } := by
    intro r ht hne
    exact handleCommand_tokenReject (by simp [tokenCheckFails, truthyStr, ht, hne])
  have hnone : ∀ r : Request, handleCommand none st d r = seqPhase st d r := by
    intro r
    simp [handleCommand, tokenCheckFails, truthyStr]
  refine ⟨hrej req, fun ht w hw => ?_, hnone req⟩
  rw [hrej { req with authToken := none } ht (by simp),
    hrej { req with authToken := some w } ht (by simp [hw])]

/-- Claim C9 witness: concrete runs of every conjunct. -/
theorem c9_token_check_witness :
    handleCommand (some "tok") 4 stubDispatch ⟨none, some 9, "pause"⟩ =
      { resp := tokenErrorResponse, lastSeqNo := 4, dispatched := false } ∧
    handleCommand (some "tok") 4 stubDispatch ⟨none, some 9, "pause"⟩ =
      handleCommand (some "tok") 4 stubDispatch ⟨some "wrong", some 9, "pause"⟩ ∧
    handleCommand none 4 stubDispatch ⟨none, some 9, "pause"⟩ =
      seqPhase 4 stubDispatch ⟨none, some 9, "pause"⟩ := by
  have h := c9_token_check "tok" 4 stubDispatch ⟨none, some 9, "pause"⟩
  exact ⟨h.1 (by decide) (by decide), h.2.1 (by decide) "wrong" (by decide), h.2.2⟩

/-! ### Capture scheduler (`monitor/capture.py`)

Perceptual hashing, the redundancy detector, the exclusion policy and the
per-tick trigger decision of `capture_loop`. -/

/-- Population count computed with a structural fuel argument (the fuel `n`
suffices since `n / 2` strictly decreases); `popCount (h1 ^^^ h2)` embeds
Python's `bin(hash1 ^ hash2).count("1")`. -/
def popCountAux : Nat → Nat → Nat
  | 0, _ => 0
  | fuel + 1, n => if n = 0 then 0 else n % 2 + popCountAux fuel (n / 2)

def popCount (n : Nat) : Nat := popCountAux n n

/-- `_hamming_distance(hash1, hash2) = bin(hash1 ^ hash2).count("1")`. -/
def hammingDistance (hash1 hash2 : Nat) : Nat := popCount (hash1 ^^^ hash2)

/-- Diff bit list of `_get_dhash`: row-major booleans comparing each pixel of
the `(hash_size+1) × hash_size` grayscale buffer to its right neighbour.  The
pixel buffer is the flat `list(image.getdata())`. -/
def dhashDiff (pixels : List Nat) (hashSize : Nat) : List Bool :=
  (List.range hashSize).flatMap (fun row =>
    (List.range hashSize).map (fun col =>
      decide (pixels.getD (row * (hashSize + 1) + col) 0 >
        pixels.getD (row * (hashSize + 1) + col + 1) 0)))

/-- Decimal accumulation of `_get_dhash`: `decimal_value += 2**index` for each
set bit, i.e. the little-endian value of the bit list. -/
def bitsToNat : List Bool → Nat
  | [] => 0
  | b :: rest => (if b then 1 else 0) + 2 * bitsToNat rest

/-- `_get_dhash` for an already-resized grayscale pixel buffer. -/
def getDhash (pixels : List Nat) (hashSize : Nat) : Nat :=
  bitsToNat (dhashDiff pixels hashSize)

/-- `_is_redundant(current_hash, history, threshold=10)`. -/
def isRedundant (currentHash : Nat) (history : List Nat) (threshold : Nat) : Bool :=
  if history = [] then false
  else history.any fun h => hammingDistance currentHash h < threshold

/-- Default `threshold` parameter of `_is_redundant`. -/
def REDUNDANCY_THRESHOLD : Nat := 10

lemma bitsToNat_lt (bs : List Bool) : bitsToNat bs < 2 ^ bs.length := by
  induction bs with
  | nil => simp [bitsToNat]
  | cons b rest ih =>
    simp only [bitsToNat, List.length_cons, pow_succ]
    cases b <;> simp <;> omega

lemma length_dhashDiff (p : List Nat) (n : Nat) : (dhashDiff p n).length = n * n := by
  unfold dhashDiff
  rw [List.length_flatMap]
  rw [List.map_congr_left (g := fun _ => n) (fun a _ => by simp)]
  simp [List.map_const, List.sum_replicate, smul_eq_mul, mul_comm]

/-! ### Exclusion policy (`_is_excluded`) -/

/-- Built-in privacy keywords (case-sensitive substring match on the title). -/
def EXCLUSION_KEYWORDS : List String := ["InPrivate", "Incognito", "隐身", "私密", "无痕"]

/-- Built-in protected titles (equality or title-starts-with match). -/
def EXCLUSION_TITLES : List String :=
  ["Windows Default Lock Screen", "Search", "Program Manager", "Task Switching"]

/-- Browser keywords gating the expensive command-line check. -/
def browserKeywordList : List String := ["edge", "chrome", "firefox", "browser", "浏览器"]

/-- Privacy-mode command-line flags. -/
def privacyFlagList : List String := ["--incognito", "-inprivate", "-private", "--private-window"]

/-- Python `sub in s` substring test. -/
def strContains (s sub : String) : Bool := decide (sub.data <:+: s.data)

/-- Python `s.startswith(pre)`, character by character. -/
def strStartsWith (s pre : String) : Bool := pre.data.isPrefixOf s.data

/-- Python `s.lower()`, character by character. -/
def strLower (s : String) : String := ⟨s.data.map Char.toLower⟩

/-- Python truthiness of an optional window handle: `None` and `0` are falsy. -/
def truthyHwnd : Option Nat → Bool
  | none => false
  | some h => h ≠ 0

/-- User-configurable exclusion settings (module globals of `capture.py`;
entries are lower-cased when stored). -/
structure ExclusionConfig where
  userExcludedProcesses : List String
  userExcludedTitles : List String
  ignoreProtectedWindows : Bool

/-- Window-system oracles consumed by `_is_excluded`: the
display-affinity protection flag, the owning process name (lower-cased, `""`
on failure) and the owning process command line (lower-cased, `""` on
failure). -/
structure WinEnv where
  isWindowProtected : Nat → Bool
  processNameOf : Nat → String
  commandLineOf : Nat → String

/-- Handle-requiring tail of `_is_excluded` (steps 5-7 of the spec):
capture-protection flag, user excluded-process set, browser command-line
privacy flags. -/
def isExcludedWithHandle (cfg : ExclusionConfig) (env : WinEnv) (title : String)
    (h : Nat) (processName : Option String) : Bool :=
  if cfg.ignoreProtectedWindows && env.isWindowProtected h then true
  else if cfg.userExcludedProcesses ≠ [] &&
      (let pn0 := if truthyStr processName then processName else some (env.processNameOf h)
       let pn := strLower (pyOrEmptyStr pn0)
       pn ≠ "" && cfg.userExcludedProcesses.contains pn) then true
  else if browserKeywordList.any (fun bk => strContains (strLower title) bk) &&
      privacyFlagList.any (fun fl => strContains (env.commandLineOf h) fl) then true
  else false

/-- Shallow embedding of `_is_excluded(title, hwnd, process_name)`. -/
def isExcluded (cfg : ExclusionConfig) (env : WinEnv) (title : String)
    (hwnd : Option Nat) (processName : Option String) : Bool :=
  if title = "" then true
  else if EXCLUSION_KEYWORDS.any (fun kw => strContains title kw) then true
  else if EXCLUSION_TITLES.any (fun t => t = title || strStartsWith title t) then true
  else if cfg.userExcludedTitles.any
      (fun kw => kw ≠ "" && strContains (strLower title) kw) then true
  else
    match hwnd with
    | none => false
    | some h => if h = 0 then false else isExcludedWithHandle cfg env title h processName

/-! ### Per-tick trigger decision of `capture_loop` -/

/-- Trigger decision of one `capture_loop` tick that already passed the
pause and exclusion checks: focus-change trigger gated by worker
backpressure, interval trigger otherwise (`elif`). -/
def shouldCaptureTick (hwnd lastHwnd : Option Nat) (pending maxPending : Nat)
    (now lastCaptureTime interval : ℚ) : Bool :=
  if hwnd ≠ lastHwnd then
    if pending > maxPending then false else true
  else
    decide (now - lastCaptureTime ≥ interval)

/-- Shared `MAX_PENDING` constant (the `monitor.constants` import falls back
to 1, and no `constants` module exists in the repository). -/
def MAX_PENDING : Nat := 1

/-! ### Claims C6, C10, C5: redundancy detector, exclusion policy, triggers -/

/-- Claim C6: `_is_redundant(new_hash, history)` is true iff some history
entry has Hamming distance to the new hash strictly below the threshold
(default 10); a distance of 0 (an identical hash in history) is redundant, a
distance of 11 is not, an empty history is never redundant, and the dHash at
`hash_size = 16` fits in 256 bits. -/
theorem c6_isRedundant_characterization :
    (∀ (c : Nat) (hist : List Nat) (th : Nat),
      isRedundant c hist th = true ↔ ∃ h ∈ hist, hammingDistance c h < th) ∧
    (∀ c th, isRedundant c [] th = false) ∧
    (∀ (c : Nat) (hist : List Nat), c ∈ hist →
      isRedundant c hist REDUNDANCY_THRESHOLD = true) ∧
    isRedundant 0 [2 ^ 11 - 1] REDUNDANCY_THRESHOLD = false ∧
    (∀ pixels : List Nat, getDhash pixels 16 < 2 ^ 256) := by
  have hiff : ∀ (c : Nat) (hist : List Nat) (th : Nat),
      isRedundant c hist th = true ↔ ∃ h ∈ hist, hammingDistance c h < th := by
    intro c hist th
    by_cases hE : hist = []
    · subst hE
      simp [isRedundant]
    · simp [isRedundant, hE]
  refine ⟨hiff, fun c th => by simp [isRedundant], fun c hist hc => ?_, by decide,
    fun pixels => ?_⟩
  · refine (hiff c hist _).mpr ⟨c, hc, ?_⟩
    unfold hammingDistance
    rw [Nat.xor_self]
    decide
  · have h1 := bitsToNat_lt (dhashDiff pixels 16)
    rw [length_dhashDiff] at h1
    simpa using h1

/-- Claim C6 witness: the membership conjunct applied to a concrete
history containing the new hash itself. -/
theorem c6_isRedundant_characterization_witness :
    isRedundant 5 [5] REDUNDANCY_THRESHOLD = true :=
  c6_isRedundant_characterization.2.2.1 5 [5] (by decide)

/-- Claim C10: with a non-empty title matching none of the title rules and a
falsy window handle (`None` or `0`), `_is_excluded` returns false regardless
of the protection flag, the excluded-process set, the process name and the
command line — the handle-requiring rules cannot exclude. -/
theorem c10_excluded_requires_handle (cfg : ExclusionConfig) (env : WinEnv)
    (title : String) (hwnd : Option Nat) (pn : Option String)
    (htitle : title ≠ "")
    (hkw : EXCLUSION_KEYWORDS.any (fun kw => strContains title kw) = false)
    (hpt : EXCLUSION_TITLES.any (fun t => t = title || strStartsWith title t) = false)
    (hut : cfg.userExcludedTitles.any
      (fun kw => kw ≠ "" && strContains (strLower title) kw) = false)
    (hh : truthyHwnd hwnd = false) :
    isExcluded cfg env title hwnd pn = false := by
  unfold isExcluded
  rw [if_neg htitle, hkw, hpt, hut]
  simp only [Bool.false_eq_true, if_false]
  cases hwnd with
  | none => rfl
  | some h =>
    simp only [truthyHwnd, ne_eq, decide_not, Bool.not_eq_false', decide_eq_true_eq] at hh
    subst hh
    rfl

set_option maxRecDepth 4000 in
/-- Claim C10 witness: a window that the protection flag, the excluded
process set and the browser privacy flags would all exclude is still not
excluded when the handle is absent. -/
theorem c10_excluded_requires_handle_witness :
    isExcluded ⟨["evil.exe"], ["bank"], true⟩
      ⟨fun _ => true, fun _ => "evil.exe", fun _ => "--incognito"⟩
      "hello edge" none (some "evil.exe") = false :=
  c10_excluded_requires_handle _ _ _ _ _ (by decide) (by decide) (by decide)
    (by decide) (by decide)

/-- Claim C5 counterexample: a tick whose window handle differs from the
previous one, with `pending = 2 > MAX_PENDING = 1`, captures nothing even
though the elapsed time (100) is far beyond the interval (10) — the interval
trigger does not fire independent of focus. -/
theorem c5_interval_not_independent_of_focus :
    shouldCaptureTick (some 1) (some 2) 2 MAX_PENDING 100 0 10 = false ∧
    ((100 : ℚ) - 0 ≥ 10) := by
  constructor
  · decide
  · norm_num

/-- Claim C5 (amended): a focus-changed tick triggers a capture iff the
worker's pending count is at most `MAX_PENDING` (so 2 does not trigger with
maximum 1, and 0 does); the interval trigger fires only on ticks whose
window handle equals the previous one, where it is equivalent to the elapsed
time reaching the interval. -/
theorem c5_trigger_decision (hwnd lastHwnd : Option Nat) (pending : Nat)
    (now lastCap interval : ℚ) :
    (hwnd ≠ lastHwnd → pending ≤ MAX_PENDING →
      shouldCaptureTick hwnd lastHwnd pending MAX_PENDING now lastCap interval = true) ∧
    (hwnd ≠ lastHwnd → pending > MAX_PENDING →
      shouldCaptureTick hwnd lastHwnd pending MAX_PENDING now lastCap interval = false) ∧
    (hwnd = lastHwnd →
      (shouldCaptureTick hwnd lastHwnd pending MAX_PENDING now lastCap interval = true ↔
        now - lastCap ≥ interval)) := by
  refine ⟨fun hne hle => ?_, fun hne hgt => ?_, fun heq => ?_⟩
  · simp [shouldCaptureTick, hne, Nat.not_lt.mpr hle]
  · simp [shouldCaptureTick, hne, hgt]
  · simp [shouldCaptureTick, heq]

/-- Claim C5 amended witness: the three trigger cases at concrete inputs. -/
theorem c5_trigger_decision_witness :
    shouldCaptureTick (some 1) (some 2) 0 MAX_PENDING 0 0 10 = true ∧
    shouldCaptureTick (some 1) (some 2) 2 MAX_PENDING 0 0 10 = false ∧
    shouldCaptureTick (some 1) (some 1) 5 MAX_PENDING 20 0 10 = true := by
  refine ⟨(c5_trigger_decision (some 1) (some 2) 0 0 0 10).1 (by decide) (by decide),
    (c5_trigger_decision (some 1) (some 2) 2 0 0 10).2.1 (by decide) (by decide),
    ((c5_trigger_decision (some 1) (some 1) 5 20 0 10).2.2 rfl).mpr (by norm_num)⟩

/-! ### Task queue and in-flight accounting (`screenshot_worker.py`)

State of `ScreenshotOCRWorker` relevant to `pending_count`: the FIFO task
queue, the `_in_flight` counter (an `Int`, because Python never constrains
its type) and the stats counters.  One drain pass of `_worker_loop` is a
state transition. -/

structure WorkerState where
  /-- FIFO of queued tasks (front is dequeued next); payloads are opaque. -/
  queue : List Nat
  /-- Value of `self._in_flight`. -/
  inFlight : Int
  processedCount : Nat
  failedCount : Nat
deriving DecidableEq, Repr

def initWorkerState : WorkerState :=
  { queue := [], inFlight := 0, processedCount := 0, failedCount := 0 }

/-- `pending_count()`: queue length plus in-flight count. -/
def pendingCount (s : WorkerState) : Int := s.queue.length + s.inFlight

/-- `queue_image_from_memory` / `add_task`: append to the unbounded FIFO. -/
def enqueueTask (s : WorkerState) (t : Nat) : WorkerState :=
  { s with queue := s.queue ++ [t] }

/-- Possible outcomes of processing one dequeued task:
`process_image_from_memory` returns a success result, returns a failure
result (its internal `except` recorded the error in `failed_count`), or the
call raises — which `_worker_loop` catches and logs. -/
inductive TaskOutcome
  | succeeds
  | fails
  | raises

/-- One pass of `_worker_loop`'s drain body: `get_nowait`, increment
`_in_flight`, process the task, then decrement `_in_flight` in the `finally`
block (with the defensive negative guard).  On an empty queue nothing
happens (`queue.Empty` breaks the loop). -/
def processOneTask (s : WorkerState) (outcome : TaskOutcome) : WorkerState :=
  match s.queue with
  | [] => s
  | _ :: rest =>
    let inF : Int := s.inFlight + 1
    let afterStats : WorkerState :=
      match outcome with
      | TaskOutcome.succeeds =>
        { s with queue := rest, inFlight := inF, processedCount := s.processedCount + 1 }
      | TaskOutcome.fails =>
        { s with queue := rest, inFlight := inF, failedCount := s.failedCount + 1 }
      | TaskOutcome.raises => { s with queue := rest, inFlight := inF }
    { afterStats with
      inFlight := if afterStats.inFlight > 0 then afterStats.inFlight - 1 else 0 }

/-- States reachable from worker start by enqueues and drain passes. -/
inductive WorkerReachable : WorkerState → Prop
  | init : WorkerReachable initWorkerState
  | enqueue {s : WorkerState} (t : Nat) :
      WorkerReachable s → WorkerReachable (enqueueTask s t)
  | process {s : WorkerState} (o : TaskOutcome) :
      WorkerReachable s → WorkerReachable (processOneTask s o)

lemma processOneTask_inFlight_of_nonneg (s : WorkerState) (o : TaskOutcome)
    (h : 0 ≤ s.inFlight) : (processOneTask s o).inFlight = s.inFlight := by
  unfold processOneTask
  cases hq : s.queue with
  | nil => rfl
  | cons t rest => cases o <;> simp <;> omega

lemma workerReachable_inFlight_nonneg (s : WorkerState) (h : WorkerReachable s) :
    0 ≤ s.inFlight := by
  induction h with
  | init => simp [initWorkerState]
  | enqueue t _ ih => simpa [enqueueTask] using ih
  | process o _ ih =>
    rw [processOneTask_inFlight_of_nonneg _ o ih]
    exact ih

/-- Claim C8: in every reachable worker state, `pending_count()` equals the
queue length plus the in-flight count and is nonnegative; and one full drain
pass — whatever its outcome, including an exception inside task processing —
restores the in-flight counter to its prior value and keeps the pending
count nonnegative. -/
theorem c8_pending_count_invariant (s : WorkerState) (h : WorkerReachable s) :
    pendingCount s = s.queue.length + s.inFlight ∧
    0 ≤ pendingCount s ∧
    (∀ o, (processOneTask s o).inFlight = s.inFlight) ∧
    (∀ o, 0 ≤ pendingCount (processOneTask s o)) := by
  have hnn := workerReachable_inFlight_nonneg s h
  refine ⟨rfl, ?_, fun o => processOneTask_inFlight_of_nonneg s o hnn, fun o => ?_⟩
  · unfold pendingCount
    have : (0 : Int) ≤ s.queue.length := Int.ofNat_nonneg _
    omega
  · have h1 := processOneTask_inFlight_of_nonneg s o hnn
    unfold pendingCount
    rw [h1]
    have : (0 : Int) ≤ ((processOneTask s o).queue.length : Int) := Int.ofNat_nonneg _
    omega

/-- Claim C8 witness: an enqueue followed by a drain pass that raises still
returns the in-flight counter to zero and leaves the pending count
nonnegative. -/
theorem c8_pending_count_invariant_witness :
    (processOneTask (enqueueTask initWorkerState 7) TaskOutcome.raises).inFlight =
      (enqueueTask initWorkerState 7).inFlight ∧
    0 ≤ pendingCount (processOneTask (enqueueTask initWorkerState 7) TaskOutcome.raises) := by
  have h := c8_pending_count_invariant (enqueueTask initWorkerState 7)
    (WorkerReachable.enqueue 7 WorkerReachable.init)
  exact ⟨h.2.2.1 TaskOutcome.raises, h.2.2.2 TaskOutcome.raises⟩

/-! ### Persistence handshake (`process_image_from_memory`)

The storage client, the recognizer and the vector store are external
collaborators; their behaviour on this one call is an oracle environment.
The function's observable effects are the returned result, the stats bumps
and the ordered trace of `abort_screenshot` calls and `result['error']`
assignments. -/

/-- One recognized text span (box geometry is irrelevant to these claims;
confidences are modelled as rationals). -/
structure Span where
  text : String
  confidence : ℚ
deriving DecidableEq, Repr

/-- Behaviour of `storage_client.save_screenshot_temp` on this call: raise,
or return a response dict with optional `status`, `screenshot_id`, `id` and
`error` fields. -/
inductive TempOutcome
  | throws (msg : String)
  | returns (status : Option String) (screenshotId : Option String)
      (idField : Option String) (err : Option String)

/-- Behaviour of `ocr_engine.recognize` on this call. -/
inductive RecogOutcome
  | throws (msg : String)
  | returns (spans : List Span)

/-- Behaviour of `storage_client.commit_screenshot` on this call. -/
inductive CommitOutcome
  | throws (msg : String)
  | returns (status : Option String) (err : Option String)

/-- Behaviour of `storage_client.save_screenshot` on this call. -/
inductive SaveOutcome
  | throws (msg : String)
  | returns (status : Option String) (err : Option String)

structure StorageEnv where
  temp : TempOutcome
  commit : CommitOutcome
  save : SaveOutcome

/-- Ordered observable events: `abort_screenshot(sid, reason)` calls and
`result['error'] = str(e)` assignments. -/
inductive ProcEvent
  | abortCall (sid : String) (reason : String)
  | errorSet (msg : String)
deriving DecidableEq, Repr

structure ProcResult where
  success : Bool
  error : Option String
  /-- Whether `stats['processed_count']` was incremented. -/
  processedInc : Bool
  /-- Whether `stats['failed_count']` was incremented. -/
  failedInc : Bool
  /-- Number of recognized spans surviving the confidence filter (added to
  `stats['total_texts_found']` on success). -/
  textsFound : Nat
  trace : List ProcEvent
deriving DecidableEq, Repr

/-- Staging step of `process_image_from_memory` (lines 179-196): call
`save_screenshot_temp` only when a storage client exists and no truthy
staged id was handed in; a raise or a non-success response is logged and
leaves the id as it was (`None`). -/
def stagePhase (hasStorage : Bool) (env : StorageEnv) (sid0 : Option String) :
    Option String :=
  if hasStorage = true ∧ truthyStr sid0 = false then
    match env.temp with
    | TempOutcome.throws _ => none
    | TempOutcome.returns status sidF idF _ =>
      if status = some "success" ∨ truthyStr sidF = true then pyOrStr sidF idF
      else none
  else sid0

/-- Shallow embedding of `process_image_from_memory`: staging, recognition,
confidence filter, then either the stage/commit/abort handshake (truthy
staged id) or the direct `save_screenshot` path, with the inner
`except` re-raising into the outer handler that records the error and bumps
`failed_count`.  The vector-store step swallows its own exceptions and so
never alters control flow. -/
def processImageFromMemory (hasStorage : Bool) (env : StorageEnv)
    (recog : RecogOutcome) (sid0 : Option String) (threshold : ℚ) : ProcResult :=
  let sid := stagePhase hasStorage env sid0
  match recog with
  | RecogOutcome.throws msg =>
    -- the recognize call sits outside the storage try block: its exception
    -- reaches the outer handler directly, with no abort
    { success := false, error := some msg, processedInc := false, failedInc := true,
      textsFound := 0, trace := [ProcEvent.errorSet msg] }
  | RecogOutcome.returns spans =>
    let filtered := spans.filter (fun r => decide (r.confidence ≥ threshold))
    if hasStorage then
      if truthyStr sid then
        let sidS := pyOrEmptyStr sid
        match env.commit with
        | CommitOutcome.throws msg =>
          -- inner except: abort (id is truthy), record error, re-raise;
          -- outer handler records the error again and bumps failed_count
          { success := false, error := some msg, processedInc := false, failedInc := true,
            textsFound := 0,
            trace := [ProcEvent.abortCall sidS msg, ProcEvent.errorSet msg,
              ProcEvent.errorSet msg] }
        | CommitOutcome.returns status err =>
          if status = some "success" ∨ status = none then
            { success := true, error := none, processedInc := true, failedInc := false,
              textsFound := filtered.length, trace := [] }
          else
            -- abort, then `raise Exception(reason)`, whose handler aborts again
            let reason := "commit failed: " ++ pyStrOpt err
            { success := false, error := some reason, processedInc := false,
              failedInc := true, textsFound := 0,
              trace := [ProcEvent.abortCall sidS reason, ProcEvent.abortCall sidS reason,
                ProcEvent.errorSet reason, ProcEvent.errorSet reason] }
      else
        match env.save with
        | SaveOutcome.throws msg =>
          { success := false, error := some msg, processedInc := false, failedInc := true,
            textsFound := 0, trace := [ProcEvent.errorSet msg, ProcEvent.errorSet msg] }
        | SaveOutcome.returns status err =>
          if status = some "success" then
            { success := true, error := none, processedInc := true, failedInc := false,
              textsFound := filtered.length, trace := [] }
          else if status = some "duplicate" then
            { success := true, error := none, processedInc := true, failedInc := false,
              textsFound := filtered.length, trace := [] }
          else
            let reason := "存储失败: " ++ pyStrOpt err
            { success := false, error := some reason, processedInc := false,
              failedInc := true, textsFound := 0,
              trace := [ProcEvent.errorSet reason, ProcEvent.errorSet reason] }
    else
      let msg := "存储客户端未初始化，无法安全存储截图"
      { success := false, error := some msg, processedInc := false, failedInc := true,
        textsFound := 0, trace := [ProcEvent.errorSet msg] }

def isAbortEvent : ProcEvent → Bool
  | ProcEvent.abortCall _ _ => true
  | ProcEvent.errorSet _ => false

def isErrorSetEvent : ProcEvent → Bool
  | ProcEvent.abortCall _ _ => false
  | ProcEvent.errorSet _ => true

/-- Number of `abort_screenshot` invocations in one call. -/
def abortCount (r : ProcResult) : Nat := r.trace.countP isAbortEvent

/-- All abort calls happen before the first error-recording event. -/
def abortsPrecedeErrors (r : ProcResult) : Bool :=
  (r.trace.takeWhile (fun e => !isErrorSetEvent e)).countP isAbortEvent
    == r.trace.countP isAbortEvent

/-! ### Claim C1: abort discipline after a successful stage -/

/-- Environment where staging succeeds and the commit is rejected with a
non-success status. -/
def commitRejectedEnv : StorageEnv :=
  { temp := TempOutcome.returns (some "success") (some "sid1") none none,
    commit := CommitOutcome.returns (some "error") (some "boom"),
    save := SaveOutcome.returns none none }

/-- Claim C1 counterexample: after a successful stage (staged id `sid1`), a
commit rejected with a non-success status reaches `abort_screenshot` twice,
and a recognizer exception reaches it zero times — in both cases the frame
fails, so neither failing path aborts exactly once. -/
theorem c1_abort_exactly_once_counterexample :
    stagePhase true commitRejectedEnv none = some "sid1" ∧
    (processImageFromMemory true commitRejectedEnv
      (RecogOutcome.returns []) none (1/2)).success = false ∧
    abortCount (processImageFromMemory true commitRejectedEnv
      (RecogOutcome.returns []) none (1/2)) = 2 ∧
    (processImageFromMemory true commitRejectedEnv
      (RecogOutcome.throws "ocr crashed") none (1/2)).success = false ∧
    abortCount (processImageFromMemory true commitRejectedEnv
      (RecogOutcome.throws "ocr crashed") none (1/2)) = 0 := by
  refine ⟨rfl, rfl, rfl, rfl, rfl⟩

/-- Claim C1 (amended): after a successful stage, an exception thrown by the
commit/storage call reaches `abort` exactly once and before the error is
recorded; a commit returning a non-success, non-absent status reaches
`abort` twice (once before raising, once again in the exception handler),
still before the error is recorded; and an exception from the Recognizer
itself is recorded as a failure without any `abort` at all. -/
theorem c1_abort_per_failure_path (env : StorageEnv) (sid0 : Option String)
    (th : ℚ) (spans : List Span) (msg : String)
    (hstage : truthyStr (stagePhase true env sid0) = true) :
    (∀ m, env.commit = CommitOutcome.throws m →
      abortCount (processImageFromMemory true env (RecogOutcome.returns spans) sid0 th) = 1 ∧
      abortsPrecedeErrors
        (processImageFromMemory true env (RecogOutcome.returns spans) sid0 th) = true ∧
      (processImageFromMemory true env (RecogOutcome.returns spans) sid0 th).success = false ∧
      (processImageFromMemory true env (RecogOutcome.returns spans) sid0 th).failedInc
        = true) ∧
    (∀ status err, env.commit = CommitOutcome.returns status err →
      ¬(status = some "success" ∨ status = none) →
      abortCount (processImageFromMemory true env (RecogOutcome.returns spans) sid0 th) = 2 ∧
      abortsPrecedeErrors
        (processImageFromMemory true env (RecogOutcome.returns spans) sid0 th) = true ∧
      (processImageFromMemory true env (RecogOutcome.returns spans) sid0 th).success = false ∧
      (processImageFromMemory true env (RecogOutcome.returns spans) sid0 th).failedInc
        = true) ∧
    (abortCount (processImageFromMemory true env (RecogOutcome.throws msg) sid0 th) = 0 ∧
      (processImageFromMemory true env (RecogOutcome.throws msg) sid0 th).success = false ∧
      (processImageFromMemory true env (RecogOutcome.throws msg) sid0 th).failedInc = true) := by
  refine ⟨fun m hc => ?_, fun status err hc hstat => ?_, ?_⟩
  · simp [processImageFromMemory, hstage, hc, abortCount, abortsPrecedeErrors,
      isAbortEvent, isErrorSetEvent]
  · simp [processImageFromMemory, hstage, hc, hstat, abortCount, abortsPrecedeErrors,
      isAbortEvent, isErrorSetEvent]
  · simp [processImageFromMemory, abortCount, abortsPrecedeErrors, isAbortEvent,
      isErrorSetEvent]

/-- Claim C1 amended witness: the three failure paths at concrete inputs. -/
theorem c1_abort_per_failure_path_witness :
    abortCount (processImageFromMemory true
      { commitRejectedEnv with commit := CommitOutcome.throws "pipe broke" }
      (RecogOutcome.returns []) none (1/2)) = 1 ∧
    abortCount (processImageFromMemory true commitRejectedEnv
      (RecogOutcome.returns []) none (1/2)) = 2 ∧
    abortCount (processImageFromMemory true commitRejectedEnv
      (RecogOutcome.throws "ocr crashed") none (1/2)) = 0 := by
  refine ⟨((c1_abort_per_failure_path
      { commitRejectedEnv with commit := CommitOutcome.throws "pipe broke" }
      none (1/2) [] "ocr crashed" (by decide)).1 "pipe broke" rfl).1, ?_, ?_⟩
  · exact ((c1_abort_per_failure_path commitRejectedEnv none (1/2) [] "ocr crashed"
      (by decide)).2.1 (some "error") (some "boom") rfl (by decide)).1
  · exact (c1_abort_per_failure_path commitRejectedEnv none (1/2) [] "ocr crashed"
      (by decide)).2.2.1

/-! ### Relational store (`db_handler.py`)

SQLite tables become lists of rows; `AUTOINCREMENT` ids become explicit
counters; `CURRENT_TIMESTAMP` becomes an integer timestamp argument (the
stored `YYYY-mm-dd HH:MM:SS` strings compare lexicographically exactly as
the underlying instants compare, so an `Int` timestamp preserves every
comparison the queries make).  Box coordinates (`REAL` in the schema) are
modelled as integers: the only arithmetic on them is the `ABS(..) < 10`
dedup proximity check.  The `md5` hashes of texts and of image files are
oracle functions. -/

structure Box where
  x1 : Int
  y1 : Int
  x2 : Int
  y2 : Int
  x3 : Int
  y3 : Int
  x4 : Int
  y4 : Int
deriving DecidableEq, Repr

/-- Row of the `screenshots` table. -/
structure SRow where
  id : Nat
  imagePath : String
  imageHash : String
  width : Option Int
  height : Option Int
  windowTitle : Option String
  processName : Option String
  createdAt : Int
  metadata : Option String
deriving DecidableEq, Repr

/-- Row of the `ocr_results` table. -/
structure ORow where
  id : Nat
  screenshotId : Nat
  text : String
  textHash : String
  confidence : ℚ
  box : Box
  createdAt : Int
deriving DecidableEq, Repr

/-- Row of the `text_index` table. -/
structure TRow where
  textHash : String
  text : String
  occurrenceCount : Nat
deriving DecidableEq, Repr

structure Database where
  screenshots : List SRow
  ocrResults : List ORow
  textIndex : List TRow
  nextScreenshotId : Nat
  nextOcrId : Nat
deriving DecidableEq, Repr

/-- One entry of the `ocr_results` argument list. -/
structure OCRInput where
  text : String
  confidence : ℚ
  box : Box
deriving DecidableEq, Repr

/-- `screenshot_exists(image_hash)`. -/
def screenshotExists (db : Database) (imageHash : String) : Bool :=
  db.screenshots.any fun r => r.imageHash = imageHash

/-- `add_screenshot`: return `None` when a record with the hash exists,
otherwise insert a fresh row and return its id. -/
def addScreenshot (db : Database) (imagePath : String) (width height : Option Int)
    (windowTitle processName : Option String) (metadata : Option String)
    (imageHash : String) (now : Int) : Database × Option Nat :=
  if screenshotExists db imageHash then (db, none)
  else
    let row : SRow :=
      { id := db.nextScreenshotId, imagePath := imagePath, imageHash := imageHash,
        width := width, height := height, windowTitle := windowTitle,
        processName := processName, createdAt := now, metadata := metadata }
    let db2 : Database :=
      { db with
        screenshots := db.screenshots ++ [row],
        nextScreenshotId := db.nextScreenshotId + 1 }
    (db2, some db.nextScreenshotId)

/-- The `INSERT ... ON CONFLICT(text_hash) DO UPDATE` upsert on `text_index`. -/
def upsertTextIndex (idx : List TRow) (textHash text : String) : List TRow :=
  if idx.any (fun t => t.textHash = textHash) then
    idx.map fun t =>
      if t.textHash = textHash then { t with occurrenceCount := t.occurrenceCount + 1 }
      else t
  else idx ++ [{ textHash := textHash, text := text, occurrenceCount := 1 }]

/-- The duplicate check of `add_ocr_results`: same screenshot, same text
hash, first box corner within distance 10 on both axes. -/
def ocrDupExists (rows : List ORow) (sid : Nat) (textHash : String)
    (bx b1 : Int) : Bool :=
  rows.any fun o =>
    o.screenshotId = sid ∧ o.textHash = textHash ∧
      (o.box.x1 - bx).natAbs < 10 ∧ (o.box.y1 - b1).natAbs < 10

/-- Loop body of `add_ocr_results` for one result dict. -/
def addOcrStep (hashFn : String → String) (sid : Nat) (skipDuplicates : Bool)
    (now : Int) (acc : Database × Nat × Nat) (r : OCRInput) : Database × Nat × Nat :=
  let d := acc.1
  let th := hashFn r.text
  let d1 : Database := { d with textIndex := upsertTextIndex d.textIndex th r.text }
  if skipDuplicates ∧ ocrDupExists d1.ocrResults sid th r.box.x1 r.box.y1 then
    (d1, acc.2.1, acc.2.2 + 1)
  else
    let row : ORow :=
      { id := d1.nextOcrId, screenshotId := sid, text := r.text, textHash := th,
        confidence := r.confidence, box := r.box, createdAt := now }
    ({ d1 with ocrResults := d1.ocrResults ++ [row], nextOcrId := d1.nextOcrId + 1 },
      acc.2.1 + 1, acc.2.2)

/-- `add_ocr_results(screenshot_id, ocr_results, skip_duplicates)`: per
result, upsert the text index, optionally skip near-duplicates, else insert;
returns `(added, skipped)`. -/
def addOcrResults (hashFn : String → String) (db : Database) (sid : Nat)
    (results : List OCRInput) (skipDuplicates : Bool) (now : Int) :
    Database × Nat × Nat :=
  results.foldl (addOcrStep hashFn sid skipDuplicates now) (db, 0, 0)

/-- Result dict of `save_ocr_data`. -/
structure SaveDataResult where
  status : String
  screenshotId : Option Nat
  added : Nat
  skipped : Nat
deriving DecidableEq, Repr

/-- `save_ocr_data`: hash the image file, try `add_screenshot`; on `None`
look up the existing record's id and report a `duplicate`, else store the
OCR rows and report `success`. -/
def saveOcrData (hashFn fileHash : String → String) (db : Database)
    (imagePath : String) (results : List OCRInput) (width height : Option Int)
    (windowTitle processName : Option String) (metadata : Option String)
    (now : Int) : Database × SaveDataResult :=
  let imageHash := fileHash imagePath
  match addScreenshot db imagePath width height windowTitle processName metadata
      imageHash now with
  | (_, none) =>
    let existing := (db.screenshots.find? fun r => r.imageHash = imageHash).map SRow.id
    (db, { status := "duplicate", screenshotId := existing, added := 0,
           skipped := results.length })
  | (db1, some sid) =>
    let res := addOcrResults hashFn db1 sid results true now
    (res.1, { status := "success", screenshotId := some sid, added := res.2.1,
              skipped := res.2.2 })

/-- Uniqueness invariant of the `screenshots` table: content hashes are
pairwise distinct. -/
def hashesNodup (db : Database) : Prop :=
  (db.screenshots.map SRow.imageHash).Nodup

lemma addOcrStep_screenshots (hashFn : String → String) (sid : Nat) (skip : Bool)
    (now : Int) (acc : Database × Nat × Nat) (r : OCRInput) :
    (addOcrStep hashFn sid skip now acc r).1.screenshots = acc.1.screenshots := by
  unfold addOcrStep
  by_cases h : skip = true ∧
      ocrDupExists { acc.1 with
        textIndex := upsertTextIndex acc.1.textIndex (hashFn r.text) r.text }.ocrResults
        sid (hashFn r.text) r.box.x1 r.box.y1 = true
  · simp only [if_pos h]
  · simp only [if_neg h]

lemma addOcrFold_screenshots (hashFn : String → String) (sid : Nat)
    (results : List OCRInput) (skip : Bool) (now : Int) :
    ∀ acc : Database × Nat × Nat,
      (results.foldl (addOcrStep hashFn sid skip now) acc).1.screenshots =
        acc.1.screenshots := by
  induction results with
  | nil => intro acc; rfl
  | cons r rest ih =>
    intro acc
    rw [List.foldl_cons, ih (addOcrStep hashFn sid skip now acc r),
      addOcrStep_screenshots]

lemma addOcrResults_screenshots (hashFn : String → String) (db : Database)
    (sid : Nat) (results : List OCRInput) (skip : Bool) (now : Int) :
    (addOcrResults hashFn db sid results skip now).1.screenshots = db.screenshots := by
  unfold addOcrResults
  exact addOcrFold_screenshots hashFn sid results skip now (db, 0, 0)

/-! ### Claim C4: content-hash dedup -/

/-- Claim C4: a save whose content hash already has a record returns status
`duplicate` carrying the existing record's id, changes nothing in the
database (no new screenshots row, no new OCR rows) and reports zero added
rows; every save preserves hash uniqueness; a save with a fresh hash creates
exactly one screenshots row and reports `success`; and at the worker a
`duplicate` storage response is a success-path skip — no error is recorded
and `failed_count` is not incremented. -/
theorem c4_duplicate_is_skip (hashFn fileHash : String → String) (db : Database)
    (path : String) (results : List OCRInput) (w hgt : Option Int)
    (wt pn md : Option String) (now : Int) :
    (∀ r ∈ db.screenshots, r.imageHash = fileHash path → hashesNodup db →
      saveOcrData hashFn fileHash db path results w hgt wt pn md now =
        (db, { status := "duplicate", screenshotId := some r.id, added := 0,
               skipped := results.length })) ∧
    (hashesNodup db →
      hashesNodup (saveOcrData hashFn fileHash db path results w hgt wt pn md now).1) ∧
    (screenshotExists db (fileHash path) = false →
      (saveOcrData hashFn fileHash db path results w hgt wt pn md now).2.status
          = "success" ∧
      (saveOcrData hashFn fileHash db path results w hgt wt pn md
        now).1.screenshots.length = db.screenshots.length + 1) ∧
    (∀ (env : StorageEnv) (spans : List Span) (sid0 : Option String) (th : ℚ)
        (err : Option String),
      truthyStr (stagePhase true env sid0) = false →
      env.save = SaveOutcome.returns (some "duplicate") err →
      (processImageFromMemory true env (RecogOutcome.returns spans) sid0 th).success
          = true ∧
      (processImageFromMemory true env (RecogOutcome.returns spans) sid0 th).failedInc
          = false ∧
      (processImageFromMemory true env (RecogOutcome.returns spans) sid0 th).error
          = none) := by
  refine ⟨fun r hr hhash hnd => ?_, fun hnd => ?_, fun hex => ?_,
    fun env spans sid0 th err hstage hsave => ?_⟩
  · have hex : screenshotExists db (fileHash path) = true := by
      simp only [screenshotExists, List.any_eq_true]
      exact ⟨r, hr, by simp [hhash]⟩
    have hfind : ∃ r0, db.screenshots.find? (fun x => x.imageHash = fileHash path)
        = some r0 := by
      rw [← Option.isSome_iff_exists]
      rw [List.find?_isSome]
      exact ⟨r, hr, by simp [hhash]⟩
    obtain ⟨r0, hr0⟩ := hfind
    have hr0mem := List.mem_of_find?_eq_some hr0
    have hr0hash : r0.imageHash = fileHash path := by
      have := List.find?_some hr0
      simpa using this
    have : r0 = r := by
      apply List.inj_on_of_nodup_map hnd hr0mem hr
      rw [hr0hash, hhash]
    subst this
    simp [saveOcrData, addScreenshot, hex, hr0]
  · by_cases hex : screenshotExists db (fileHash path) = true
    · simp [saveOcrData, addScreenshot, hex]
      exact hnd
    · replace hex : screenshotExists db (fileHash path) = false := by
        simpa using hex
      have hnotmem : fileHash path ∉ db.screenshots.map SRow.imageHash := by
        intro hmem
        rw [List.mem_map] at hmem
        obtain ⟨x, hx, hxh⟩ := hmem
        have hex2 : screenshotExists db (fileHash path) = true := by
          simp only [screenshotExists, List.any_eq_true]
          exact ⟨x, hx, by simp [hxh]⟩
        rw [hex2] at hex
        cases hex
      simp only [saveOcrData, addScreenshot, hex, Bool.false_eq_true, if_false]
      unfold hashesNodup
      rw [addOcrResults_screenshots]
      simp only [List.map_append, List.map_cons, List.map_nil]
      rw [List.nodup_append]
      exact ⟨hnd, by simp, by simpa using hnotmem⟩
  · simp only [saveOcrData, addScreenshot, hex, Bool.false_eq_true, if_false]
    refine ⟨by trivial, ?_⟩
    rw [addOcrResults_screenshots]
    simp
  · simp [processImageFromMemory, hstage, hsave]

/-- Sample row for the C4 witness database. -/
def sampleRow : SRow :=
  { id := 1, imagePath := "a.jpg", imageHash := "h1", width := none, height := none, windowTitle := none, processName := none, createdAt := 0, metadata := none }

/-- Sample database already holding the hash `h1`. -/
def sampleDb : Database :=
  { screenshots := [sampleRow], ocrResults := [], textIndex := [], nextScreenshotId := 2, nextOcrId := 1 }

/-- Environment where staging fails and the direct save reports `duplicate`. -/
def dupSaveEnv : StorageEnv :=
  { temp := TempOutcome.returns none none none none, commit := CommitOutcome.returns none none, save := SaveOutcome.returns (some "duplicate") none }

/-- Claim C4 witness: the duplicate branch on a concrete database holding
the hash already, and the worker-level skip on a `duplicate` response. -/
theorem c4_duplicate_is_skip_witness :
    saveOcrData (fun t => t) (fun _ => "h1") sampleDb "b.jpg" [] none none none
        none none 5 =
      (sampleDb,
        { status := "duplicate", screenshotId := some 1, added := 0, skipped := 0 }) ∧
    (processImageFromMemory true dupSaveEnv (RecogOutcome.returns []) none 1).success
        = true ∧
    (processImageFromMemory true dupSaveEnv (RecogOutcome.returns []) none 1).failedInc
        = false := by
  have h2 := (c4_duplicate_is_skip (fun t => t) (fun _ => "h1") sampleDb "b.jpg" []
    none none none none none 5).2.2.2 dupSaveEnv [] none 1 none (by decide) rfl
  exact ⟨(c4_duplicate_is_skip (fun t => t) (fun _ => "h1") sampleDb "b.jpg" [] none
    none none none none 5).1 sampleRow (by simp [sampleDb]) rfl
    (by simp [hashesNodup, sampleDb]), h2.1, h2.2.1⟩

/-! ### Search and relevance ranking (`search_text`, fuzzy mode)

The SQL query is embedded by its semantics: join, conjunctive WHERE
filters, ORDER BY on (relevance, `s.created_at`, `r.id`) descending, then
OFFSET/LIMIT.  `LIKE '%term%'` is substring containment (query terms carry
no SQL wildcards).  The relevance expression
`(length(lower(text)) - length(replace(lower(text), term, ''))) / length(term)`
uses SQLite integer division. -/

/-- Python `query.split()`: split on whitespace runs, dropping empties. -/
def wsSplitAux : List Char → List Char → List String
  | [], acc => if acc = [] then [] else [String.mk acc.reverse]
  | c :: rest, acc =>
    if c = ' ' ∨ c = '\t' ∨ c = '\n' ∨ c = '\r' then
      if acc = [] then wsSplitAux rest []
      else String.mk acc.reverse :: wsSplitAux rest []
    else wsSplitAux rest (c :: acc)

def splitTerms (q : String) : List String := wsSplitAux q.data []

/-- SQLite `replace(s, pat, '')`: delete non-overlapping occurrences of
`pat`, leftmost first.  Fuel-based for kernel computability; fuel
`s.length` always suffices. -/
def strReplaceDelAux : Nat → List Char → List Char → List Char
  | 0, s, _ => s
  | _ + 1, [], _ => []
  | fuel + 1, c :: rest, pat =>
    if pat ≠ [] ∧ pat.isPrefixOf (c :: rest) then
      strReplaceDelAux fuel ((c :: rest).drop pat.length) pat
    else c :: strReplaceDelAux fuel rest pat

def strReplaceDel (s pat : List Char) : List Char := strReplaceDelAux s.length s pat

/-- Number of non-overlapping occurrences of `pat` in `s`, leftmost first. -/
def countOccAux : Nat → List Char → List Char → Nat
  | 0, _, _ => 0
  | _ + 1, [], _ => 0
  | fuel + 1, c :: rest, pat =>
    if pat ≠ [] ∧ pat.isPrefixOf (c :: rest) then
      1 + countOccAux fuel ((c :: rest).drop pat.length) pat
    else countOccAux fuel rest pat

def countOcc (pat s : List Char) : Nat := countOccAux s.length s pat

/-- Per-term relevance of the SQL expression: `CASE WHEN length(?) > 0 THEN
(length(text) - length(replace(text, ?, ''))) / length(?) ELSE 0 END`. -/
def termRelevance (text term : List Char) : Nat :=
  if 0 < term.length then
    (text.length - (strReplaceDel text term).length) / term.length
  else 0

/-- Total relevance of one text: sum over the terms (text and terms
lower-cased as in the SQL). -/
def codeRelevance (text : String) (terms : List String) : Nat :=
  (terms.map fun t => termRelevance (strLower text).data (strLower t).data).sum

/-- The `FROM ocr_results r JOIN screenshots s ON r.screenshot_id = s.id`. -/
def joinRows (db : Database) : List (ORow × SRow) :=
  db.ocrResults.flatMap fun r =>
    (db.screenshots.filter fun s => s.id = r.screenshotId).map fun s => (r, s)

/-- Conjunctive WHERE clause of `search_text`: the query/fuzzy text clauses,
the process-name allow-list (already normalized upstream) and the inclusive
time bounds. -/
def searchPred (query : String) (fuzzy : Bool) (terms procs : List String)
    (st et : Option Int) (rs : ORow × SRow) : Bool :=
  (if query = "" then true
   else if fuzzy then terms.all fun t => strContains (strLower rs.1.text) (strLower t)
   else decide (rs.1.text = query)) &&
  (if procs = [] then true
   else match rs.2.processName with
     | some p => procs.contains p
     | none => false) &&
  (match st with
   | some v => decide (v ≤ rs.2.createdAt)
   | none => true) &&
  (match et with
   | some v => decide (rs.2.createdAt ≤ v)
   | none => true)

/-- Descending lexicographic comparison of `(relevance, created_at, id)`
keys, as a boolean total preorder. -/
def tripleGE (x y : Nat × Int × Nat) : Bool :=
  if x.1 ≠ y.1 then decide (y.1 < x.1)
  else if x.2.1 ≠ y.2.1 then decide (y.2.1 < x.2.1)
  else decide (y.2.2 ≤ x.2.2)

/-- ORDER BY key of one joined row. -/
def searchKey (useRel : Bool) (terms : List String) (rs : ORow × SRow) :
    Nat × Int × Nat :=
  ((if useRel then codeRelevance rs.1.text terms else 0), rs.2.createdAt, rs.1.id)

/-- The ORDER BY relation of `search_text`: `relevance DESC` (when a
relevance expression exists), then `s.created_at DESC`, then `r.id DESC`. -/
def searchRel (useRel : Bool) (terms : List String) :
    (ORow × SRow) → (ORow × SRow) → Prop :=
  fun a b => tripleGE (searchKey useRel terms a) (searchKey useRel terms b) = true

instance (u : Bool) (terms : List String) : DecidableRel (searchRel u terms) :=
  fun _ _ => decEq _ _

/-- Shallow embedding of `search_text`'s query semantics. -/
def searchText (db : Database) (query : String) (limit offset : Nat) (fuzzy : Bool)
    (procs : List String) (st et : Option Int) : List (ORow × SRow) :=
  let terms : List String := if query ≠ "" ∧ fuzzy = true then splitTerms query else []
  let useRel : Bool := decide (query ≠ "") && fuzzy && decide (terms ≠ [])
  let rows := (joinRows db).filter (searchPred query fuzzy terms procs st et)
  let sorted := List.insertionSort (searchRel useRel terms) rows
  (sorted.drop offset).take limit

/-! #### The specification's scoring formula, for comparison -/

/-- An exact nonnegative fraction (denominators are always positive here). -/
structure Frac where
  num : Nat
  den : Nat
deriving DecidableEq, Repr

def fracAdd (x y : Frac) : Frac := ⟨x.num * y.den + y.num * x.den, x.den * y.den⟩

def fracLt (x y : Frac) : Bool := decide (x.num * y.den < y.num * x.den)

def fracEqB (x y : Frac) : Bool := decide (x.num * y.den = y.num * x.den)

/-- Modelled from the spec: the claimed per-term score, "(occurrences of the
term in the text) divided by max(1, length of the term)". -/
def specTermScore (text term : List Char) : Frac :=
  ⟨countOcc term text, max 1 term.length⟩

/-- Modelled from the spec: the claimed total score of a text. -/
def specRelevance (text : String) (terms : List String) : Frac :=
  (terms.map fun t => specTermScore (strLower text).data (strLower t).data).foldl
    fracAdd ⟨0, 1⟩

/-- Modelled from the spec: score descending, capture time descending,
record id descending. -/
def specRel (terms : List String) : (ORow × SRow) → (ORow × SRow) → Prop :=
  fun a b =>
    (if fracEqB (specRelevance a.1.text terms) (specRelevance b.1.text terms) = false
     then fracLt (specRelevance b.1.text terms) (specRelevance a.1.text terms)
     else tripleGE (0, a.2.createdAt, a.1.id) (0, b.2.createdAt, b.1.id)) = true

instance (terms : List String) : DecidableRel (specRel terms) :=
  fun _ _ => decEq _ _

/-- Modelled from the spec: fuzzy search ranked by the claimed
occurrences-over-length score, with the same matching and pagination. -/
def specSearchText (db : Database) (query : String) (limit offset : Nat)
    (procs : List String) (st et : Option Int) : List (ORow × SRow) :=
  let terms := splitTerms query
  let rows := (joinRows db).filter (searchPred query true terms procs st et)
  let sorted := List.insertionSort (specRel terms) rows
  (sorted.drop offset).take limit

/-! ### Claim C7: fuzzy relevance ranking -/

lemma countOccAux_mul_le (pat : List Char) :
    ∀ (fuel : Nat) (s : List Char), s.length ≤ fuel →
      countOccAux fuel s pat * pat.length ≤ s.length := by
  intro fuel
  induction fuel with
  | zero => intro s _; simp [countOccAux]
  | succ n ih =>
    intro s hs
    match s with
    | [] => simp [countOccAux]
    | c :: rest =>
      rw [countOccAux]
      by_cases hp : pat ≠ [] ∧ pat.isPrefixOf (c :: rest) = true
      · rw [if_pos hp]
        have hplen : pat.length ≤ (c :: rest).length :=
          (List.isPrefixOf_iff_prefix.mp hp.2).length_le
        have hpat1 : 1 ≤ pat.length := List.length_pos.mpr hp.1
        have hle : ((c :: rest).drop pat.length).length ≤ n := by
          rw [List.length_drop]
          simp only [List.length_cons] at hs ⊢
          omega
        have hrec := ih _ hle
        rw [List.length_drop] at hrec
        simp only [List.length_cons] at *
        rw [add_mul, one_mul]
        omega
      · rw [if_neg hp]
        have hrec := ih rest (by simp only [List.length_cons] at hs; omega)
        simp only [List.length_cons]
        omega

lemma strReplaceDelAux_length (pat : List Char) :
    ∀ (fuel : Nat) (s : List Char), s.length ≤ fuel →
      (strReplaceDelAux fuel s pat).length =
        s.length - countOccAux fuel s pat * pat.length := by
  intro fuel
  induction fuel with
  | zero => intro s _; simp [strReplaceDelAux, countOccAux]
  | succ n ih =>
    intro s hs
    match s with
    | [] => simp [strReplaceDelAux, countOccAux]
    | c :: rest =>
      rw [strReplaceDelAux, countOccAux]
      by_cases hp : pat ≠ [] ∧ pat.isPrefixOf (c :: rest) = true
      · rw [if_pos hp, if_pos hp]
        have hplen : pat.length ≤ (c :: rest).length :=
          (List.isPrefixOf_iff_prefix.mp hp.2).length_le
        have hpat1 : 1 ≤ pat.length := List.length_pos.mpr hp.1
        have hle : ((c :: rest).drop pat.length).length ≤ n := by
          rw [List.length_drop]
          simp only [List.length_cons] at hs ⊢
          omega
        have hrec := ih _ hle
        have hbound := countOccAux_mul_le pat n ((c :: rest).drop pat.length) hle
        rw [List.length_drop] at hrec hbound
        simp only [List.length_cons] at *
        rw [hrec, add_mul, one_mul]
        omega
      · rw [if_neg hp, if_neg hp]
        have hrest : rest.length ≤ n := by
          simp only [List.length_cons] at hs; omega
        have hrec := ih rest hrest
        have hbound := countOccAux_mul_le pat n rest hrest
        simp only [List.length_cons, hrec]
        omega

lemma termRelevance_eq_countOcc (text term : List Char) (h : term ≠ []) :
    termRelevance text term = countOcc term text := by
  unfold termRelevance countOcc strReplaceDel
  have hpos : 0 < term.length := List.length_pos.mpr h
  rw [if_pos hpos, strReplaceDelAux_length term text.length text (le_refl _)]
  have hle := countOccAux_mul_le term text.length text (le_refl _)
  have heq : text.length -
      (text.length - countOccAux text.length text term * term.length) =
      countOccAux text.length text term * term.length := by omega
  rw [heq, Nat.mul_div_cancel _ hpos]

lemma tripleGE_trans (x y z : Nat × Int × Nat) (h1 : tripleGE x y = true)
    (h2 : tripleGE y z = true) : tripleGE x z = true := by
  obtain ⟨a1, b1, c1⟩ := x
  obtain ⟨a2, b2, c2⟩ := y
  obtain ⟨a3, b3, c3⟩ := z
  simp only [tripleGE] at *
  split_ifs at h1 h2 ⊢ <;> simp_all <;> omega

lemma tripleGE_total (x y : Nat × Int × Nat) :
    tripleGE x y = true ∨ tripleGE y x = true := by
  obtain ⟨a1, b1, c1⟩ := x
  obtain ⟨a2, b2, c2⟩ := y
  simp only [tripleGE]
  split_ifs <;> (simp_all; try omega)

instance (u : Bool) (terms : List String) : IsTrans (ORow × SRow) (searchRel u terms) :=
  ⟨fun _ _ _ h1 h2 => tripleGE_trans _ _ _ h1 h2⟩

instance (u : Bool) (terms : List String) : IsTotal (ORow × SRow) (searchRel u terms) :=
  ⟨fun _ _ => tripleGE_total _ _⟩

/-- A box with all corners at the origin, for sample rows. -/
def zeroBox : Box := ⟨0, 0, 0, 0, 0, 0, 0, 0⟩

def cxS1 : SRow :=
  { id := 1, imagePath := "p1", imageHash := "x1", width := none, height := none, windowTitle := none, processName := none, createdAt := 10, metadata := none }

def cxS2 : SRow :=
  { id := 2, imagePath := "p2", imageHash := "x2", width := none, height := none, windowTitle := none, processName := none, createdAt := 5, metadata := none }

def cxRow1 : ORow :=
  { id := 1, screenshotId := 1, text := "aa aa b", textHash := "t1", confidence := 1, box := zeroBox, createdAt := 10 }

def cxRow2 : ORow :=
  { id := 2, screenshotId := 2, text := "b aa b", textHash := "t2", confidence := 1, box := zeroBox, createdAt := 5 }

def cxDb : Database :=
  { screenshots := [cxS1, cxS2], ocrResults := [cxRow1, cxRow2], textIndex := [], nextScreenshotId := 3, nextOcrId := 3 }

/-- Claim C7 counterexample: for the query `"aa b"` the code scores both
texts 3 (sum of occurrence counts) and breaks the tie by newer capture time,
returning `"aa aa b"` first; the claimed occurrences-over-term-length score
gives `"b aa b"` the strictly higher score 5/2 versus 2 and would return it
first — the two orderings disagree. -/
theorem c7_scoring_counterexample :
    searchText cxDb "aa b" 10 0 true [] none none = [(cxRow1, cxS1), (cxRow2, cxS2)] ∧
    specSearchText cxDb "aa b" 10 0 [] none none = [(cxRow2, cxS2), (cxRow1, cxS1)] ∧
    searchText cxDb "aa b" 10 0 true [] none none ≠
      specSearchText cxDb "aa b" 10 0 [] none none := by
  refine ⟨by decide, by decide, by decide⟩

def helloS1 : SRow :=
  { id := 1, imagePath := "p1", imageHash := "y1", width := none, height := none, windowTitle := none, processName := none, createdAt := 0, metadata := none }

def helloS2 : SRow :=
  { id := 2, imagePath := "p2", imageHash := "y2", width := none, height := none, windowTitle := none, processName := none, createdAt := 100, metadata := none }

def helloRow1 : ORow :=
  { id := 1, screenshotId := 1, text := "hello hello world", textHash := "t1", confidence := 1, box := zeroBox, createdAt := 0 }

def helloRow2 : ORow :=
  { id := 2, screenshotId := 2, text := "hello", textHash := "t2", confidence := 1, box := zeroBox, createdAt := 100 }

def helloDb : Database :=
  { screenshots := [helloS1, helloS2], ocrResults := [helloRow1, helloRow2], textIndex := [], nextScreenshotId := 3, nextOcrId := 3 }

/-- Claim C7 (amended): in fuzzy mode the per-term SQL relevance equals the
number of non-overlapping occurrences of the term (not divided by the term
length); results are sorted by total relevance descending, then capture time
descending, then record id descending; every returned row contains all query
terms and passes the process/time filters; and for the query
`"hello world"` the text `"hello hello world"` is returned first while the
text `"hello"` alone is not returned at all (it fails the conjunctive
`LIKE '%world%'` clause). -/
theorem c7_fuzzy_ranking (db : Database) (query : String) (limit offset : Nat)
    (procs : List String) (st et : Option Int) :
    (∀ text term : List Char, term ≠ [] →
      termRelevance text term = countOcc term text) ∧
    (query ≠ "" → splitTerms query ≠ [] →
      List.Sorted (searchRel true (splitTerms query))
        (searchText db query limit offset true procs st et)) ∧
    (query ≠ "" → ∀ rs ∈ searchText db query limit offset true procs st et,
      searchPred query true (splitTerms query) procs st et rs = true) ∧
    (searchText helloDb "hello world" 10 0 true [] none none
        = [(helloRow1, helloS1)] ∧
      (helloRow2, helloS2) ∉ searchText helloDb "hello world" 10 0 true [] none none) := by
  refine ⟨fun text term h => termRelevance_eq_countOcc text term h,
    fun hq ht => ?_, fun hq rs hmem => ?_, by decide, by decide⟩
  · simp only [searchText]
    rw [if_pos (show query ≠ "" ∧ True from ⟨hq, trivial⟩)]
    have huse : (decide (query ≠ "") && true && decide (splitTerms query ≠ [])) = true := by
      simp [hq, ht]
    rw [huse]
    exact List.Pairwise.sublist
      ((List.take_sublist _ _).trans (List.drop_sublist _ _))
      (List.sorted_insertionSort _ _)
  · simp only [searchText] at hmem
    rw [if_pos (show query ≠ "" ∧ True from ⟨hq, trivial⟩)] at hmem
    have h1 := List.mem_of_mem_take hmem
    have h2 := List.mem_of_mem_drop h1
    rw [List.mem_insertionSort] at h2
    exact (List.mem_filter.mp h2).2

/-- Claim C7 amended witness: the conjuncts with hypotheses, applied at
concrete inputs. -/
theorem c7_fuzzy_ranking_witness :
    termRelevance "aa aa b".data "aa".data = countOcc "aa".data "aa aa b".data ∧
    List.Sorted (searchRel true (splitTerms "aa b"))
      (searchText cxDb "aa b" 10 0 true [] none none) ∧
    searchPred "aa b" true (splitTerms "aa b") [] none none (cxRow1, cxS1) = true := by
  have h := c7_fuzzy_ranking cxDb "aa b" 10 0 [] none none
  refine ⟨h.1 "aa aa b".data "aa".data (by decide), h.2.1 (by decide) (by decide), ?_⟩
  exact h.2.2.1 (by decide) (cxRow1, cxS1) (by decide)

end CarbonPaper
